import Mathlib

/-!
Verification of the amortizing-loan computation `calculateLoan` from
`src/components/LoanCalculator.tsx`.

The JavaScript numeric values are modelled by `JSNum`: NaN, the two
infinities, and finite values carried exactly as rationals (the source
performs only field operations, `Math.pow` with a natural exponent and
`Math.max`, so the exact-arithmetic model mirrors the code's data flow;
floating-point rounding is outside the model).  The term-months input is
the result of `parseInt`, hence an integer or NaN, modelled by `Option ℤ`.
-/

namespace LoanCalc

/-- A JavaScript number as produced by `parseFloat` and consumed by the
arithmetic in `calculateLoan`: NaN, +Infinity, -Infinity, or a finite
value (modelled exactly as a rational). -/
inductive JSNum where
  | nan : JSNum
  | posInf : JSNum
  | negInf : JSNum
  | fin : ℚ → JSNum
deriving DecidableEq

/-- JavaScript truthiness of a number: `!x` is true exactly when x is 0 or NaN. -/
def truthy : JSNum → Bool
  | .nan => false
  | .posInf => true
  | .negInf => true
  | .fin q => decide (q ≠ 0)

/-- JavaScript `x <= y` on numbers (false whenever an operand is NaN). -/
def jsLe : JSNum → JSNum → Bool
  | .nan, _ => false
  | _, .nan => false
  | .negInf, _ => true
  | .posInf, .posInf => true
  | .posInf, _ => false
  | .fin _, .posInf => true
  | .fin _, .negInf => false
  | .fin a, .fin b => a ≤ b

/-- JavaScript `x < y` on numbers (false whenever an operand is NaN). -/
def jsLt : JSNum → JSNum → Bool
  | .nan, _ => false
  | _, .nan => false
  | _, .negInf => false
  | .negInf, _ => true
  | .posInf, _ => false
  | .fin _, .posInf => true
  | .fin a, .fin b => a < b

/-- JavaScript `x === 0` for a number x (NaN and the infinities are not 0). -/
def jsEqZero : JSNum → Bool
  | .fin a => decide (a = 0)
  | _ => false

/-- JavaScript addition. -/
def jsAdd : JSNum → JSNum → JSNum
  | .nan, _ => .nan
  | _, .nan => .nan
  | .posInf, .negInf => .nan
  | .negInf, .posInf => .nan
  | .posInf, _ => .posInf
  | _, .posInf => .posInf
  | .negInf, _ => .negInf
  | _, .negInf => .negInf
  | .fin a, .fin b => .fin (a + b)

/-- JavaScript negation. -/
def jsNeg : JSNum → JSNum
  | .nan => .nan
  | .posInf => .negInf
  | .negInf => .posInf
  | .fin a => .fin (-a)

/-- JavaScript subtraction. -/
def jsSub (x y : JSNum) : JSNum := jsAdd x (jsNeg y)

/-- JavaScript multiplication (Infinity times 0 is NaN). -/
def jsMul : JSNum → JSNum → JSNum
  | .nan, _ => .nan
  | _, .nan => .nan
  | .posInf, .posInf => .posInf
  | .posInf, .negInf => .negInf
  | .negInf, .posInf => .negInf
  | .negInf, .negInf => .posInf
  | .posInf, .fin b => if b = 0 then .nan else if 0 < b then .posInf else .negInf
  | .fin a, .posInf => if a = 0 then .nan else if 0 < a then .posInf else .negInf
  | .negInf, .fin b => if b = 0 then .nan else if 0 < b then .negInf else .posInf
  | .fin a, .negInf => if a = 0 then .nan else if 0 < a then .negInf else .posInf
  | .fin a, .fin b => .fin (a * b)

/-- JavaScript division (Infinity over Infinity is NaN, finite over ±Infinity
is 0, finite nonzero over 0 is a signed infinity, 0 over 0 is NaN; the model
has no signed zero). -/
def jsDiv : JSNum → JSNum → JSNum
  | .nan, _ => .nan
  | _, .nan => .nan
  | .posInf, .posInf => .nan
  | .posInf, .negInf => .nan
  | .negInf, .posInf => .nan
  | .negInf, .negInf => .nan
  | .posInf, .fin b => if 0 ≤ b then .posInf else .negInf
  | .negInf, .fin b => if 0 ≤ b then .negInf else .posInf
  | .fin _, .posInf => .fin 0
  | .fin _, .negInf => .fin 0
  | .fin a, .fin b =>
      if b = 0 then (if a = 0 then .nan else if 0 < a then .posInf else .negInf)
      else .fin (a / b)

/-- JavaScript `Math.max(0, x)` (NaN-propagating). -/
def jsMax0 : JSNum → JSNum
  | .nan => .nan
  | .posInf => .posInf
  | .negInf => .fin 0
  | .fin a => .fin (max 0 a)

/-- JavaScript `Math.pow(x, n)` for a natural exponent n (the only use in the
source has the positive integer `months` as exponent). -/
def jsPowNat : JSNum → ℕ → JSNum
  | _, 0 => .fin 1
  | .nan, _ + 1 => .nan
  | .posInf, _ + 1 => .posInf
  | .negInf, n + 1 => if (n + 1) % 2 = 0 then .posInf else .negInf
  | .fin a, n + 1 => .fin (a ^ (n + 1))

/-- Truthiness of the `parseInt` result (an integer, or `none` for NaN). -/
def truthyInt : Option ℤ → Bool
  | none => false
  | some m => decide (m ≠ 0)

/-- JavaScript `months <= 0` on the `parseInt` result (false for NaN). -/
def intLeZero : Option ℤ → Bool
  | none => false
  | some m => m ≤ 0

/-- One row of the payment schedule, mirroring the `PaymentSchedule`
interface of the source. -/
structure PaymentSchedule where
  paymentNumber : ℕ
  paymentAmount : JSNum
  principalAmount : JSNum
  interestAmount : JSNum
  remainingBalance : JSNum
deriving DecidableEq

/-- The loan summary, mirroring the `LoanSummary` interface of the source. -/
structure LoanSummary where
  monthlyPayment : JSNum
  totalPayments : JSNum
  totalInterest : JSNum
  totalAmount : JSNum
deriving DecidableEq

/-- The schedule-building loop of `calculateLoan`
(`for (let i = 1; i <= months; i++) { ... if (remainingBalance === 0) break; }`),
with the remaining number of iterations as fuel, the current payment number,
and the running balance. -/
def buildSchedule (monthlyPayment monthlyRate : JSNum) :
    ℕ → ℕ → JSNum → List PaymentSchedule
  | 0, _, _ => []
  | fuel + 1, i, balance =>
    let interestAmount := jsMul balance monthlyRate
    let principalAmount := jsSub monthlyPayment interestAmount
    let newBalance := jsMax0 (jsSub balance principalAmount)
    let row : PaymentSchedule :=
      { paymentNumber := i
        paymentAmount := monthlyPayment
        principalAmount := principalAmount
        interestAmount := interestAmount
        remainingBalance := newBalance }
    if jsEqZero newBalance then [row]
    else row :: buildSchedule monthlyPayment monthlyRate fuel (i + 1) newBalance

/-- The numeric core of `calculateLoan` from `LoanCalculator.tsx`: inputs are
the parsed `principal`, `annualRate` (from `parseFloat`) and `months` (from
`parseInt`); the result is `none` exactly when the source clears the schedule
and the summary, and otherwise the produced summary and schedule. -/
def calculateLoan (principal annualRate : JSNum) (months : Option ℤ) :
    Option (LoanSummary × List PaymentSchedule) :=
  if !truthy principal || !truthy annualRate || !truthyInt months
      || jsLe principal (.fin 0) || jsLt annualRate (.fin 0) || intLeZero months then
    none
  else
    let m : ℕ := (months.getD 0).toNat
    let monthlyRate := jsDiv (jsDiv annualRate (.fin 100)) (.fin 12)
    let monthlyPayment :=
      if jsEqZero monthlyRate then
        jsDiv principal (.fin (m : ℚ))
      else
        jsDiv (jsMul (jsMul principal monthlyRate) (jsPowNat (jsAdd (.fin 1) monthlyRate) m))
          (jsSub (jsPowNat (jsAdd (.fin 1) monthlyRate) m) (.fin 1))
    let schedule := buildSchedule monthlyPayment monthlyRate m 1 principal
    let totalPayments := jsMul monthlyPayment (.fin (m : ℚ))
    let totalInterest := jsSub totalPayments principal
    some ({ monthlyPayment := monthlyPayment
            totalPayments := totalPayments
            totalInterest := totalInterest
            totalAmount := totalPayments }, schedule)

/-! ### Spec-side definitions (stated from the specification, for comparison) -/

/-- The monthly rate of spec §4.1 step 1: `r = annualRatePercent / 100 / 12`. -/
def specMonthlyRate (annualRate : ℚ) : ℚ := annualRate / 100 / 12

/-- The standard annuity payment of spec §4.1 step 2 (nonzero-rate branch):
`P = principal · r · (1+r)^termMonths / ((1+r)^termMonths − 1)`. -/
def specAnnuityPayment (principal annualRate : ℚ) (m : ℕ) : ℚ :=
  principal * specMonthlyRate annualRate * (1 + specMonthlyRate annualRate) ^ m /
    ((1 + specMonthlyRate annualRate) ^ m - 1)

/-- The spec's balance recurrence (§4.1 step 3), stated from the spec's words:
starting from the principal, each period pays interest `balance · r`,
principal `P − interest`, and the balance is clamped at 0. -/
def specBalance (P r principal : ℚ) : ℕ → ℚ
  | 0 => principal
  | i + 1 =>
    max 0 (specBalance P r principal i - (P - specBalance P r principal i * r))

/-! ### Closed form of the schedule for valid finite inputs -/

/-- Closed form of the balance after `i` payments of the exact annuity
schedule: `p · ((1+r)^m − (1+r)^i) / ((1+r)^m − 1)`. -/
def nomBalance (p a : ℚ) (m i : ℕ) : ℚ :=
  p * ((1 + specMonthlyRate a) ^ m - (1 + specMonthlyRate a) ^ i) /
    ((1 + specMonthlyRate a) ^ m - 1)

/-- The row emitted for payment number `i + 1` on a valid finite input. -/
def nomRow (p a : ℚ) (m i : ℕ) : PaymentSchedule :=
  { paymentNumber := i + 1
    paymentAmount := .fin (specAnnuityPayment p a m)
    principalAmount := .fin (specAnnuityPayment p a m - nomBalance p a m i * specMonthlyRate a)
    interestAmount := .fin (nomBalance p a m i * specMonthlyRate a)
    remainingBalance := .fin (nomBalance p a m (i + 1)) }

lemma specMonthlyRate_pos {a : ℚ} (ha : 0 < a) : 0 < specMonthlyRate a := by
  unfold specMonthlyRate; positivity

lemma one_lt_pow_rate {a : ℚ} (ha : 0 < a) {m : ℕ} (hm : m ≠ 0) :
    1 < (1 + specMonthlyRate a) ^ m :=
  one_lt_pow₀ (by linarith [specMonthlyRate_pos ha]) hm

lemma denom_pos {a : ℚ} (ha : 0 < a) {m : ℕ} (hm : m ≠ 0) :
    0 < (1 + specMonthlyRate a) ^ m - 1 := by
  have := one_lt_pow_rate ha hm; linarith

lemma nomBalance_zero {p a : ℚ} (ha : 0 < a) {m : ℕ} (hm : m ≠ 0) :
    nomBalance p a m 0 = p := by
  have h := (denom_pos ha hm).ne'
  unfold nomBalance
  rw [pow_zero]
  field_simp

lemma nomBalance_succ {p a : ℚ} (ha : 0 < a) {m : ℕ} (hm : m ≠ 0) (i : ℕ) :
    nomBalance p a m (i + 1)
      = nomBalance p a m i
          - (specAnnuityPayment p a m - nomBalance p a m i * specMonthlyRate a) := by
  have h := (denom_pos ha hm).ne'
  unfold nomBalance specAnnuityPayment
  field_simp
  ring

lemma nomBalance_nonneg {p a : ℚ} (hp : 0 < p) (ha : 0 < a) {m i : ℕ}
    (hm : m ≠ 0) (him : i ≤ m) : 0 ≤ nomBalance p a m i := by
  unfold nomBalance
  apply div_nonneg
  · apply mul_nonneg hp.le
    have : (1 + specMonthlyRate a) ^ i ≤ (1 + specMonthlyRate a) ^ m :=
      pow_le_pow_right₀ (by linarith [specMonthlyRate_pos ha]) him
    linarith
  · linarith [denom_pos ha hm]

lemma nomBalance_pos {p a : ℚ} (hp : 0 < p) (ha : 0 < a) {m i : ℕ}
    (him : i < m) : 0 < nomBalance p a m i := by
  unfold nomBalance
  apply div_pos
  · apply mul_pos hp
    have : (1 + specMonthlyRate a) ^ i < (1 + specMonthlyRate a) ^ m :=
      pow_lt_pow_right₀ (by linarith [specMonthlyRate_pos ha]) him
    linarith
  · exact denom_pos ha (by omega)

lemma nomBalance_last {p a : ℚ} (m : ℕ) : nomBalance p a m m = 0 := by
  unfold nomBalance; simp

lemma nomBalance_anti {p a : ℚ} (hp : 0 < p) (ha : 0 < a) {m : ℕ} (hm : m ≠ 0)
    {i j : ℕ} (hij : i ≤ j) : nomBalance p a m j ≤ nomBalance p a m i := by
  unfold nomBalance
  have hr := specMonthlyRate_pos ha
  have hx : (1 + specMonthlyRate a) ^ i ≤ (1 + specMonthlyRate a) ^ j :=
    pow_le_pow_right₀ (by linarith) hij
  have hd := denom_pos ha hm
  have hnum : p * ((1 + specMonthlyRate a) ^ m - (1 + specMonthlyRate a) ^ j)
      ≤ p * ((1 + specMonthlyRate a) ^ m - (1 + specMonthlyRate a) ^ i) := by
    apply mul_le_mul_of_nonneg_left (by linarith) hp.le
  exact div_le_div_of_nonneg_right hnum hd.le

lemma specBalance_eq_nomBalance {p a : ℚ} (hp : 0 < p) (ha : 0 < a) {m : ℕ}
    (hm : m ≠ 0) : ∀ i, i ≤ m →
    specBalance (specAnnuityPayment p a m) (specMonthlyRate a) p i = nomBalance p a m i := by
  intro i
  induction i with
  | zero => intro _; rw [specBalance, nomBalance_zero ha hm]
  | succ i ih =>
    intro him
    rw [specBalance, ih (by omega), ← nomBalance_succ ha hm i]
    exact max_eq_right (nomBalance_nonneg hp ha hm him)

/-! ### Reduction of the JavaScript operations on finite values -/

lemma jsAdd_fin (a b : ℚ) : jsAdd (.fin a) (.fin b) = .fin (a + b) := rfl

lemma jsSub_fin (a b : ℚ) : jsSub (.fin a) (.fin b) = .fin (a - b) := by
  simp [jsSub, jsAdd, jsNeg, sub_eq_add_neg]

lemma jsMul_fin (a b : ℚ) : jsMul (.fin a) (.fin b) = .fin (a * b) := rfl

lemma jsMax0_fin (a : ℚ) : jsMax0 (.fin a) = .fin (max 0 a) := rfl

lemma jsEqZero_fin (a : ℚ) : jsEqZero (.fin a) = decide (a = 0) := rfl

lemma jsDiv_fin (a b : ℚ) (hb : b ≠ 0) : jsDiv (.fin a) (.fin b) = .fin (a / b) := by
  simp [jsDiv, hb]

lemma jsPowNat_fin (a : ℚ) (n : ℕ) : jsPowNat (.fin a) n = .fin (a ^ n) := by
  cases n with
  | zero => simp [jsPowNat]
  | succ n => rfl

/-! ### The schedule loop on a valid finite input -/

lemma buildSchedule_valid_eq {p a : ℚ} (hp : 0 < p) (ha : 0 < a) {m : ℕ} :
    ∀ f j, j + f = m → j < m →
    buildSchedule (.fin (specAnnuityPayment p a m)) (.fin (specMonthlyRate a))
        f (j + 1) (.fin (nomBalance p a m j))
      = (List.range f).map (fun k => nomRow p a m (j + k)) := by
  intro f
  induction f with
  | zero => intro j h1 h2; omega
  | succ f ih =>
    intro j hjf hjm
    have hm : m ≠ 0 := by omega
    have hstep : nomBalance p a m j
        - (specAnnuityPayment p a m - nomBalance p a m j * specMonthlyRate a)
        = nomBalance p a m (j + 1) := (nomBalance_succ ha hm j).symm
    rw [buildSchedule]
    simp only [jsMul_fin, jsSub_fin, jsMax0_fin, jsEqZero_fin]
    rw [hstep, max_eq_right (nomBalance_nonneg hp ha hm (by omega))]
    by_cases hf0 : f = 0
    · subst hf0
      have hz : nomBalance p a m (j + 1) = 0 := by
        have hj1 : j + 1 = m := by omega
        rw [hj1]; exact nomBalance_last m
      simp [hz, nomRow, List.range_succ]
    · have hlt : j + 1 < m := by omega
      have hne : nomBalance p a m (j + 1) ≠ 0 := (nomBalance_pos hp ha hlt).ne'
      rw [if_neg (by simp [hne])]
      rw [ih (j + 1) (by omega) (by omega)]
      rw [List.range_succ_eq_map, List.map_cons, List.map_map]
      congr 1
      apply List.map_congr_left
      intro k _
      show nomRow p a m (j + 1 + k) = nomRow p a m (j + (k + 1))
      rw [show j + 1 + k = j + (k + 1) from by omega]

/-- On a valid finite input (positive principal, positive rate, positive
integer term) `calculateLoan` produces the closed-form summary and the full
`termMonths`-row schedule. -/
lemma calculateLoan_valid_eq {p a : ℚ} {m : ℤ} (hp : 0 < p) (ha : 0 < a) (hm : 0 < m) :
    calculateLoan (.fin p) (.fin a) (some m) =
      some ({ monthlyPayment := .fin (specAnnuityPayment p a m.toNat)
              totalPayments := .fin (specAnnuityPayment p a m.toNat * (m.toNat : ℚ))
              totalInterest := .fin (specAnnuityPayment p a m.toNat * (m.toNat : ℚ) - p)
              totalAmount := .fin (specAnnuityPayment p a m.toNat * (m.toNat : ℚ)) },
            (List.range m.toNat).map (nomRow p a m.toNat)) := by
  have hmn : m.toNat ≠ 0 := by omega
  have hr := specMonthlyRate_pos ha
  have hd := denom_pos ha hmn
  have hg : (!truthy (JSNum.fin p) || !truthy (JSNum.fin a) || !truthyInt (some m)
      || jsLe (JSNum.fin p) (.fin 0) || jsLt (JSNum.fin a) (.fin 0)
      || intLeZero (some m)) = false := by
    simp [truthy, truthyInt, jsLe, jsLt, intLeZero, hp.ne', ha.ne', hm.ne',
      hp.not_le, not_lt.mpr ha.le, not_le.mpr hm]
  have hbs : buildSchedule (.fin (specAnnuityPayment p a m.toNat))
      (.fin (specMonthlyRate a)) m.toNat 1 (.fin p)
      = (List.range m.toNat).map (fun k => nomRow p a m.toNat k) := by
    have hbs0 := buildSchedule_valid_eq hp ha (m := m.toNat) m.toNat 0 (by omega) (by omega)
    rw [nomBalance_zero ha hmn] at hbs0
    simpa using hbs0
  simp only [calculateLoan, hg, Bool.false_eq_true, if_false, Option.getD_some]
  rw [jsDiv_fin a 100 (by norm_num), jsDiv_fin (a / 100) 12 (by norm_num)]
  rw [show a / 100 / 12 = specMonthlyRate a from rfl]
  rw [if_neg (by simp [jsEqZero_fin, hr.ne'])]
  simp only [jsAdd_fin, jsPowNat_fin, jsMul_fin, jsSub_fin]
  rw [jsDiv_fin _ _ hd.ne']
  rw [show p * specMonthlyRate a * (1 + specMonthlyRate a) ^ m.toNat
      / ((1 + specMonthlyRate a) ^ m.toNat - 1) = specAnnuityPayment p a m.toNat from rfl]
  rw [hbs]
  simp only [jsMul_fin, jsSub_fin]

/-! ### Validity predicates -/

/-- The validity condition of spec §4.1, stated from the spec's words:
principal a positive finite number, annualRatePercent a finite number ≥ 0,
termMonths a positive integer. -/
def specValidInput (principal annualRate : JSNum) (months : Option ℤ) : Prop :=
  (∃ q, principal = JSNum.fin q ∧ 0 < q) ∧
  (∃ q, annualRate = JSNum.fin q ∧ 0 ≤ q) ∧
  (∃ k, months = some k ∧ 0 < k)

/-- The inputs the code's guard actually lets through: principal positive
finite or +Infinity, annual rate positive finite or +Infinity, term a
positive integer. -/
def acceptedInput (principal annualRate : JSNum) (months : Option ℤ) : Prop :=
  (principal = JSNum.posInf ∨ ∃ q, principal = JSNum.fin q ∧ 0 < q) ∧
  (annualRate = JSNum.posInf ∨ ∃ q, annualRate = JSNum.fin q ∧ 0 < q) ∧
  (∃ k, months = some k ∧ 0 < k)

lemma principal_guard_iff (p : JSNum) :
    ((!truthy p) = false ∧ jsLe p (.fin 0) = false)
      ↔ (p = JSNum.posInf ∨ ∃ q, p = JSNum.fin q ∧ 0 < q) := by
  rcases p with _ | _ | _ | q <;> simp [truthy, jsLe, not_le]
  exact fun h => h.ne'

lemma rate_guard_iff (r : JSNum) :
    ((!truthy r) = false ∧ jsLt r (.fin 0) = false)
      ↔ (r = JSNum.posInf ∨ ∃ q, r = JSNum.fin q ∧ 0 < q) := by
  rcases r with _ | _ | _ | s <;> simp [truthy, jsLt, not_lt]
  constructor
  · rintro ⟨h1, h2⟩; exact lt_of_le_of_ne h2 (Ne.symm h1)
  · intro h; exact ⟨h.ne', h.le⟩

lemma months_guard_iff (m : Option ℤ) :
    ((!truthyInt m) = false ∧ intLeZero m = false) ↔ (∃ k, m = some k ∧ 0 < k) := by
  rcases m with _ | k <;> simp [truthyInt, intLeZero, not_le]
  omega

lemma guard_false_iff (p r : JSNum) (m : Option ℤ) :
    (!truthy p || !truthy r || !truthyInt m || jsLe p (.fin 0) || jsLt r (.fin 0)
      || intLeZero m) = false ↔ acceptedInput p r m := by
  simp only [Bool.or_eq_false_iff]
  constructor
  · rintro ⟨⟨⟨⟨⟨h1, h2⟩, h3⟩, h4⟩, h5⟩, h6⟩
    exact ⟨(principal_guard_iff p).mp ⟨h1, h4⟩, (rate_guard_iff r).mp ⟨h2, h5⟩,
      (months_guard_iff m).mp ⟨h3, h6⟩⟩
  · rintro ⟨hP, hR, hM⟩
    obtain ⟨h1, h4⟩ := (principal_guard_iff p).mpr hP
    obtain ⟨h2, h5⟩ := (rate_guard_iff r).mpr hR
    obtain ⟨h3, h6⟩ := (months_guard_iff m).mpr hM
    exact ⟨⟨⟨⟨⟨h1, h2⟩, h3⟩, h4⟩, h5⟩, h6⟩

lemma calculateLoan_eq_none_iff (p r : JSNum) (m : Option ℤ) :
    calculateLoan p r m = none ↔
    (!truthy p || !truthy r || !truthyInt m || jsLe p (.fin 0) || jsLt r (.fin 0)
      || intLeZero m) = true := by
  unfold calculateLoan
  split
  · simp [*]
  · simp [*]

lemma rows_of_valid {p a : ℚ} {m k : ℕ} {row : PaymentSchedule}
    (h : ((List.range m).map (nomRow p a m))[k]? = some row) :
    k < m ∧ row = nomRow p a m k := by
  rw [List.getElem?_map] at h
  cases hr : (List.range m)[k]? with
  | none => rw [hr] at h; simp at h
  | some v =>
    rw [hr] at h
    obtain ⟨hlt, hval⟩ := List.getElem?_eq_some_iff.mp hr
    rw [List.length_range] at hlt
    rw [List.getElem_range] at hval
    simp at h
    rw [← hval] at h
    exact ⟨hlt, h.symm⟩

lemma mem_rows_of_valid {p a : ℚ} {m : ℕ} {row : PaymentSchedule}
    (h : row ∈ (List.range m).map (nomRow p a m)) :
    ∃ k, k < m ∧ row = nomRow p a m k := by
  rcases List.mem_map.mp h with ⟨k, hk, rfl⟩
  exact ⟨k, List.mem_range.mp hk, rfl⟩

/-! ### The claims -/

/-- Claim C1 (code-bug evidence): at the spec's concrete zero-interest
scenario (principal 1200, annual rate 0, term 12 months) the code returns
the Empty result instead of the promised 12-record straight-line schedule,
because the falsiness guard `!annualRate` rejects a zero rate even though
the payment computation has a dedicated zero-rate branch. -/
theorem C1_zero_rate_scenario_empty :
    calculateLoan (.fin 1200) (.fin 0) (some 12) = none := by decide

/-- Claim C2 counterexample: an input that is valid according to the spec
(positive finite principal, finite rate ≥ 0, positive integer term) on
which the code nevertheless returns the Empty result, refuting the claimed
equivalence between Empty and spec-invalidity. -/
theorem C2_counterexample_rate_zero :
    specValidInput (.fin 100) (.fin 0) (some 6) ∧
      calculateLoan (.fin 100) (.fin 0) (some 6) = none :=
  ⟨⟨⟨100, rfl, by norm_num⟩, ⟨0, rfl, le_refl 0⟩, ⟨6, rfl, by norm_num⟩⟩, by decide⟩

/-- Claim C2 (amended): `calculateLoan` returns the Empty result exactly
when the input fails the code's guard, i.e. unless the principal is a
positive finite number or +Infinity, the annual rate is a positive finite
number or +Infinity, and the term is a positive integer; a zero rate is
rejected and finiteness is not checked. It never raises (the model is a
total function). -/
theorem C2_empty_iff_not_accepted (p r : JSNum) (m : Option ℤ) :
    calculateLoan p r m = none ↔ ¬ acceptedInput p r m := by
  rw [calculateLoan_eq_none_iff, ← guard_false_iff p r m]
  cases (!truthy p || !truthy r || !truthyInt m || jsLe p (.fin 0) || jsLt r (.fin 0)
      || intLeZero m) <;> simp

/-- Claim C9: the computation is deterministic and idempotent — it is a
pure function of the three inputs, so any two invocations on identical
inputs return identical outputs. -/
theorem C9_deterministic (p p' a a' : JSNum) (m m' : Option ℤ)
    (hpp : p = p') (haa : a = a') (hmm : m = m') :
    calculateLoan p a m = calculateLoan p' a' m' := by
  rw [hpp, haa, hmm]

/-- Witness for C9 at a concrete input. -/
theorem C9_deterministic_witness :
    (JSNum.fin 5 : JSNum) = .fin 5 ∧ (JSNum.fin 3 : JSNum) = .fin 3 ∧
      (some (4 : ℤ)) = some 4 ∧
      calculateLoan (.fin 5) (.fin 3) (some 4) = calculateLoan (.fin 5) (.fin 3) (some 4) :=
  ⟨rfl, rfl, rfl, C9_deterministic (.fin 5) (.fin 5) (.fin 3) (.fin 3) (some 4) (some 4)
    rfl rfl rfl⟩

/-- Claim C10: the zero-rate payment branch is dead code — on every input
that passes the guard the computed monthly rate is nonzero (in exact
arithmetic), so `monthlyRate === 0` never holds. -/
theorem C10_zero_rate_branch_dead (p a : JSNum) (m : Option ℤ)
    (h : calculateLoan p a m ≠ none) :
    jsEqZero (jsDiv (jsDiv a (.fin 100)) (.fin 12)) = false := by
  have hacc : acceptedInput p a m := by
    rw [← guard_false_iff]
    rcases Bool.eq_false_or_eq_true (!truthy p || !truthy a || !truthyInt m
        || jsLe p (.fin 0) || jsLt a (.fin 0) || intLeZero m) with hb | hb
    · exact absurd ((calculateLoan_eq_none_iff p a m).mpr hb) h
    · exact hb
  obtain ⟨_, hR, _⟩ := hacc
  rcases hR with rfl | ⟨q, rfl, hq⟩
  · decide
  · rw [jsDiv_fin q 100 (by norm_num), jsDiv_fin _ 12 (by norm_num), jsEqZero_fin]
    have hpos : 0 < q / 100 / 12 := by positivity
    simp [hpos.ne']

/-- Witness for C10 at a concrete input. -/
theorem C10_zero_rate_branch_dead_witness :
    calculateLoan (.fin 1) (.fin 1200) (some 2) ≠ none ∧
      jsEqZero (jsDiv (jsDiv (.fin 1200) (.fin 100)) (.fin 12)) = false :=
  ⟨by decide, C10_zero_rate_branch_dead (.fin 1) (.fin 1200) (some 2) (by decide)⟩

/-- Claim C3: for every valid input with a positive rate, the monthly
payment equals the standard annuity formula
`principal · r · (1+r)^termMonths / ((1+r)^termMonths − 1)` with
`r = annualRatePercent / 100 / 12`, and every emitted record follows the
spec's recurrence (interest = balance·r, principal = P − interest, new
balance = max(0, balance − principal)) starting from balance = principal. -/
theorem C3_annuity_formula_and_recurrence (p a : ℚ) (m : ℤ)
    (hp : 0 < p) (ha : 0 < a) (hm : 0 < m) :
    ∃ (s : LoanSummary) (sched : List PaymentSchedule), calculateLoan (.fin p) (.fin a) (some m) = some (s, sched) ∧
      s.monthlyPayment = .fin (specAnnuityPayment p a m.toNat) ∧
      ∀ (k : ℕ) (row : PaymentSchedule), sched[k]? = some row →
        row.paymentAmount = .fin (specAnnuityPayment p a m.toNat) ∧
        row.interestAmount = .fin (specBalance (specAnnuityPayment p a m.toNat)
            (specMonthlyRate a) p k * specMonthlyRate a) ∧
        row.principalAmount = .fin (specAnnuityPayment p a m.toNat
          - specBalance (specAnnuityPayment p a m.toNat) (specMonthlyRate a) p k
            * specMonthlyRate a) ∧
        row.remainingBalance = .fin (specBalance (specAnnuityPayment p a m.toNat)
            (specMonthlyRate a) p (k + 1)) := by
  refine ⟨_, _, calculateLoan_valid_eq hp ha hm, rfl, ?_⟩
  intro k row hrow
  obtain ⟨hk, rfl⟩ := rows_of_valid hrow
  have hmn : m.toNat ≠ 0 := by omega
  rw [specBalance_eq_nomBalance hp ha hmn k hk.le,
    specBalance_eq_nomBalance hp ha hmn (k + 1) (by omega)]
  exact ⟨rfl, rfl, rfl, rfl⟩

/-- Witness for C3 at principal 1, rate 1200 (monthly rate 1), term 2. -/
theorem C3_annuity_formula_and_recurrence_witness :
    (0 : ℚ) < 1 ∧ (0 : ℚ) < 1200 ∧ (0 : ℤ) < 2 ∧
    (∃ (s : LoanSummary) (sched : List PaymentSchedule), calculateLoan (.fin 1) (.fin 1200) (some 2) = some (s, sched) ∧
      s.monthlyPayment = .fin (specAnnuityPayment 1 1200 (2 : ℤ).toNat) ∧
      ∀ (k : ℕ) (row : PaymentSchedule), sched[k]? = some row →
        row.paymentAmount = .fin (specAnnuityPayment 1 1200 (2 : ℤ).toNat) ∧
        row.interestAmount = .fin (specBalance (specAnnuityPayment 1 1200 (2 : ℤ).toNat)
            (specMonthlyRate 1200) 1 k * specMonthlyRate 1200) ∧
        row.principalAmount = .fin (specAnnuityPayment 1 1200 (2 : ℤ).toNat
          - specBalance (specAnnuityPayment 1 1200 (2 : ℤ).toNat) (specMonthlyRate 1200) 1 k
            * specMonthlyRate 1200) ∧
        row.remainingBalance = .fin (specBalance (specAnnuityPayment 1 1200 (2 : ℤ).toNat)
            (specMonthlyRate 1200) 1 (k + 1))) :=
  ⟨by norm_num, by norm_num, by norm_num,
    C3_annuity_formula_and_recurrence 1 1200 2 (by norm_num) (by norm_num) (by norm_num)⟩

/-- Claim C4: for every valid input the summary is nominal —
totalPayments = monthlyPayment × termMonths, totalInterest =
totalPayments − principal, and totalAmount = totalPayments — independent of
the emitted sequence. -/
theorem C4_summary_nominal (p a : ℚ) (m : ℤ)
    (hp : 0 < p) (ha : 0 < a) (hm : 0 < m) :
    ∃ (s : LoanSummary) (sched : List PaymentSchedule), calculateLoan (.fin p) (.fin a) (some m) = some (s, sched) ∧
      s.totalPayments = jsMul s.monthlyPayment (.fin (m.toNat : ℚ)) ∧
      s.totalInterest = jsSub s.totalPayments (.fin p) ∧
      s.totalAmount = s.totalPayments := by
  refine ⟨_, _, calculateLoan_valid_eq hp ha hm, ?_, ?_, rfl⟩
  · simp only [jsMul_fin]
  · simp only [jsMul_fin, jsSub_fin]

/-- Witness for C4 at principal 1, rate 1200, term 2. -/
theorem C4_summary_nominal_witness :
    (0 : ℚ) < 1 ∧ (0 : ℚ) < 1200 ∧ (0 : ℤ) < 2 ∧
    (∃ (s : LoanSummary) (sched : List PaymentSchedule), calculateLoan (.fin 1) (.fin 1200) (some 2) = some (s, sched) ∧
      s.totalPayments = jsMul s.monthlyPayment (.fin (((2 : ℤ).toNat : ℚ)) ) ∧
      s.totalInterest = jsSub s.totalPayments (.fin 1) ∧
      s.totalAmount = s.totalPayments) :=
  ⟨by norm_num, by norm_num, by norm_num,
    C4_summary_nominal 1 1200 2 (by norm_num) (by norm_num) (by norm_num)⟩

/-- Claim C5: for every valid input and every emitted record,
principalAmount + interestAmount equals paymentAmount (exactly, in the
exact-arithmetic model). -/
theorem C5_principal_plus_interest (p a : ℚ) (m : ℤ)
    (hp : 0 < p) (ha : 0 < a) (hm : 0 < m) :
    ∃ (s : LoanSummary) (sched : List PaymentSchedule), calculateLoan (.fin p) (.fin a) (some m) = some (s, sched) ∧
      ∀ row ∈ sched, jsAdd row.principalAmount row.interestAmount = row.paymentAmount := by
  refine ⟨_, _, calculateLoan_valid_eq hp ha hm, ?_⟩
  intro row hrow
  obtain ⟨k, hk, rfl⟩ := mem_rows_of_valid hrow
  simp [nomRow, jsAdd_fin]

/-- Witness for C5 at principal 1, rate 1200, term 2. -/
theorem C5_principal_plus_interest_witness :
    (0 : ℚ) < 1 ∧ (0 : ℚ) < 1200 ∧ (0 : ℤ) < 2 ∧
    (∃ (s : LoanSummary) (sched : List PaymentSchedule), calculateLoan (.fin 1) (.fin 1200) (some 2) = some (s, sched) ∧
      ∀ row ∈ sched, jsAdd row.principalAmount row.interestAmount = row.paymentAmount) :=
  ⟨by norm_num, by norm_num, by norm_num,
    C5_principal_plus_interest 1 1200 2 (by norm_num) (by norm_num) (by norm_num)⟩

/-- Claim C6: for every valid input the remaining balance is monotonically
non-increasing along the emitted sequence, every record's balance is ≥ 0,
and the last record's balance is exactly 0. -/
theorem C6_balance_monotone_nonneg_last_zero (p a : ℚ) (m : ℤ)
    (hp : 0 < p) (ha : 0 < a) (hm : 0 < m) :
    ∃ (s : LoanSummary) (sched : List PaymentSchedule), calculateLoan (.fin p) (.fin a) (some m) = some (s, sched) ∧
      (∀ (k : ℕ) (r1 r2 : PaymentSchedule), sched[k]? = some r1 → sched[k + 1]? = some r2 →
        jsLe r2.remainingBalance r1.remainingBalance = true) ∧
      (∀ row ∈ sched, jsLe (.fin 0) row.remainingBalance = true) ∧
      (∃ (row : PaymentSchedule), sched.getLast? = some row ∧ row.remainingBalance = .fin 0) := by
  have hmn : m.toNat ≠ 0 := by omega
  refine ⟨_, _, calculateLoan_valid_eq hp ha hm, ?_, ?_, ?_⟩
  · intro k r1 r2 h1 h2
    obtain ⟨hk1, rfl⟩ := rows_of_valid h1
    obtain ⟨hk2, rfl⟩ := rows_of_valid h2
    show jsLe (.fin (nomBalance p a m.toNat (k + 1 + 1)))
      (.fin (nomBalance p a m.toNat (k + 1))) = true
    simp only [jsLe, decide_eq_true_eq]
    exact nomBalance_anti hp ha hmn (by omega)
  · intro row hrow
    obtain ⟨k, hk, rfl⟩ := mem_rows_of_valid hrow
    show jsLe (.fin 0) (.fin (nomBalance p a m.toNat (k + 1))) = true
    simp only [jsLe, decide_eq_true_eq]
    exact nomBalance_nonneg hp ha hmn (by omega)
  · refine ⟨nomRow p a m.toNat (m.toNat - 1), ?_, ?_⟩
    · rw [List.getLast?_eq_getElem?]
      simp only [List.length_map, List.length_range]
      rw [List.getElem?_map, List.getElem?_range (by omega)]
      rfl
    · show JSNum.fin (nomBalance p a m.toNat (m.toNat - 1 + 1)) = .fin 0
      rw [show m.toNat - 1 + 1 = m.toNat from by omega, nomBalance_last]

/-- Witness for C6 at principal 1, rate 1200, term 2. -/
theorem C6_balance_monotone_nonneg_last_zero_witness :
    (0 : ℚ) < 1 ∧ (0 : ℚ) < 1200 ∧ (0 : ℤ) < 2 ∧
    (∃ (s : LoanSummary) (sched : List PaymentSchedule), calculateLoan (.fin 1) (.fin 1200) (some 2) = some (s, sched) ∧
      (∀ (k : ℕ) (r1 r2 : PaymentSchedule), sched[k]? = some r1 → sched[k + 1]? = some r2 →
        jsLe r2.remainingBalance r1.remainingBalance = true) ∧
      (∀ row ∈ sched, jsLe (.fin 0) row.remainingBalance = true) ∧
      (∃ (row : PaymentSchedule), sched.getLast? = some row ∧ row.remainingBalance = .fin 0)) :=
  ⟨by norm_num, by norm_num, by norm_num,
    C6_balance_monotone_nonneg_last_zero 1 1200 2 (by norm_num) (by norm_num) (by norm_num)⟩

/-- Claim C7: for every valid input the emitted sequence has length at most
termMonths, its records are numbered 1, 2, … in order of position, and the
sequence can only be strictly shorter than termMonths if it ends in a
record whose balance is exactly 0. -/
theorem C7_length_and_numbering (p a : ℚ) (m : ℤ)
    (hp : 0 < p) (ha : 0 < a) (hm : 0 < m) :
    ∃ (s : LoanSummary) (sched : List PaymentSchedule), calculateLoan (.fin p) (.fin a) (some m) = some (s, sched) ∧
      sched.length ≤ m.toNat ∧
      (∀ (k : ℕ) (row : PaymentSchedule), sched[k]? = some row → row.paymentNumber = k + 1) ∧
      (sched.length < m.toNat →
        ∃ (row : PaymentSchedule), sched.getLast? = some row ∧ row.remainingBalance = .fin 0) := by
  refine ⟨_, _, calculateLoan_valid_eq hp ha hm, ?_, ?_, ?_⟩
  · simp
  · intro k row h
    obtain ⟨hk, rfl⟩ := rows_of_valid h
    rfl
  · intro hlt
    simp only [List.length_map, List.length_range] at hlt
    exact absurd hlt (lt_irrefl _)

/-- Witness for C7 at principal 1, rate 1200, term 2. -/
theorem C7_length_and_numbering_witness :
    (0 : ℚ) < 1 ∧ (0 : ℚ) < 1200 ∧ (0 : ℤ) < 2 ∧
    (∃ (s : LoanSummary) (sched : List PaymentSchedule), calculateLoan (.fin 1) (.fin 1200) (some 2) = some (s, sched) ∧
      sched.length ≤ (2 : ℤ).toNat ∧
      (∀ (k : ℕ) (row : PaymentSchedule), sched[k]? = some row → row.paymentNumber = k + 1) ∧
      (sched.length < (2 : ℤ).toNat →
        ∃ (row : PaymentSchedule), sched.getLast? = some row ∧ row.remainingBalance = .fin 0)) :=
  ⟨by norm_num, by norm_num, by norm_num,
    C7_length_and_numbering 1 1200 2 (by norm_num) (by norm_num) (by norm_num)⟩

/-- Claim C8: for every valid input the payment is a single fixed value —
every emitted record's paymentAmount equals the summary's monthlyPayment. -/
theorem C8_fixed_payment (p a : ℚ) (m : ℤ)
    (hp : 0 < p) (ha : 0 < a) (hm : 0 < m) :
    ∃ (s : LoanSummary) (sched : List PaymentSchedule), calculateLoan (.fin p) (.fin a) (some m) = some (s, sched) ∧
      ∀ row ∈ sched, row.paymentAmount = s.monthlyPayment := by
  refine ⟨_, _, calculateLoan_valid_eq hp ha hm, ?_⟩
  intro row hrow
  obtain ⟨k, hk, rfl⟩ := mem_rows_of_valid hrow
  rfl

/-- Witness for C8 at principal 1, rate 1200, term 2. -/
theorem C8_fixed_payment_witness :
    (0 : ℚ) < 1 ∧ (0 : ℚ) < 1200 ∧ (0 : ℤ) < 2 ∧
    (∃ (s : LoanSummary) (sched : List PaymentSchedule), calculateLoan (.fin 1) (.fin 1200) (some 2) = some (s, sched) ∧
      ∀ row ∈ sched, row.paymentAmount = s.monthlyPayment) :=
  ⟨by norm_num, by norm_num, by norm_num,
    C8_fixed_payment 1 1200 2 (by norm_num) (by norm_num) (by norm_num)⟩

end LoanCalc
